import Mathlib

/-!
Verification of the lurk-rs proving pipeline against its specification.

The Rust sources embedded here are `src/parser.rs`, `src/proof.rs`,
`src/proof/mod.rs` and `src/proof/groth16.rs`.  Code of the repository that
is not among those files (the store in `pool.rs`, the evaluator in `eval.rs`,
and the circuit in `circuit.rs`) is modelled from the specification where a
claim depends on it; each such definition says so in its doc comment.
Field elements are modelled as natural numbers: none of the embedded code
performs field arithmetic on them, it only moves them around.
-/

/-! ## Bit counting

`usize::count_ones` from the Rust standard library, used by the proof-vector
padding loop in `groth16.rs`.  Defined with a structural fuel argument so
that it evaluates inside the kernel. -/

/-- Fueled population count: `count_ones_go fuel n` is the number of 1-bits
of `n`, provided `fuel ≥ n`. -/
def count_ones_go : ℕ → ℕ → ℕ
  | 0, _ => 0
  | _ + 1, 0 => 0
  | fuel + 1, n + 1 => (n + 1) % 2 + count_ones_go fuel ((n + 1) / 2)

/-- The number of 1-bits in the binary representation of `n`
(`usize::count_ones`). -/
def count_ones (n : ℕ) : ℕ := count_ones_go n n

theorem count_ones_go_congr : ∀ (n f₁ f₂ : ℕ), n ≤ f₁ → n ≤ f₂ →
    count_ones_go f₁ n = count_ones_go f₂ n := by
  intro n
  induction n using Nat.strong_induction_on with
  | _ n ih =>
    intro f₁ f₂ h₁ h₂
    match n, f₁, f₂ with
    | 0, 0, 0 => rfl
    | 0, 0, _ + 1 => rfl
    | 0, _ + 1, 0 => rfl
    | 0, _ + 1, _ + 1 => rfl
    | m + 1, a + 1, b + 1 =>
      have hlt : (m + 1) / 2 < m + 1 := Nat.div_lt_self (Nat.succ_pos m) (by omega)
      have hle_a : (m + 1) / 2 ≤ a := by omega
      have hle_b : (m + 1) / 2 ≤ b := by omega
      simp only [count_ones_go]
      exact congrArg _ (ih ((m + 1) / 2) hlt a b hle_a hle_b)

theorem count_ones_zero : count_ones 0 = 0 := rfl

theorem count_ones_step (n : ℕ) (h : n ≠ 0) :
    count_ones n = n % 2 + count_ones (n / 2) := by
  obtain ⟨m, rfl⟩ := Nat.exists_eq_succ_of_ne_zero h
  show count_ones_go (m + 1) (m + 1) = _
  simp only [count_ones_go, count_ones]
  have hlt : (m + 1) / 2 < m + 1 := Nat.div_lt_self (Nat.succ_pos m) (by omega)
  exact congrArg _ (count_ones_go_congr ((m + 1) / 2) m ((m + 1) / 2) (by omega) le_rfl)

theorem count_ones_eq_zero {n : ℕ} (h : count_ones n = 0) : n = 0 := by
  induction n using Nat.strong_induction_on with
  | _ n ih =>
    rcases Nat.eq_zero_or_pos n with h0 | h0
    · exact h0
    · rw [count_ones_step n (by omega)] at h
      have h2 : count_ones (n / 2) = 0 := by omega
      have hmod : n % 2 = 0 := by omega
      have := ih (n / 2) (Nat.div_lt_self h0 (by omega)) h2
      omega

theorem count_ones_two_pow (k : ℕ) : count_ones (2 ^ k) = 1 := by
  induction k with
  | zero => rfl
  | succ k ih =>
    rw [count_ones_step (2 ^ (k + 1)) (by positivity)]
    have h2 : 2 ^ (k + 1) = 2 * 2 ^ k := by ring
    rw [h2, Nat.mul_mod_right, Nat.mul_div_cancel_left _ (by omega : 0 < 2), ih]

theorem count_ones_eq_one {n : ℕ} (h : count_ones n = 1) : ∃ k, n = 2 ^ k := by
  induction n using Nat.strong_induction_on with
  | _ n ih =>
    rcases Nat.eq_zero_or_pos n with h0 | h0
    · rw [h0, count_ones_zero] at h; omega
    · rw [count_ones_step n (by omega)] at h
      have hmod2 : n % 2 = 0 ∨ n % 2 = 1 := by omega
      rcases hmod2 with hm | hm
      · have h2 : count_ones (n / 2) = 1 := by omega
        obtain ⟨k, hk⟩ := ih (n / 2) (Nat.div_lt_self h0 (by omega)) h2
        exact ⟨k + 1, by rw [pow_succ]; omega⟩
      · have h2 : count_ones (n / 2) = 0 := by omega
        have := count_ones_eq_zero h2
        exact ⟨0, by omega⟩

/-! Facts about the next admissible proof count
`max 2 (2 ^ Nat.clog 2 n)`: the value at which the padding loop of
`outer_prove` stops when started from `n`. -/

theorem count_ones_next_pow (n : ℕ) :
    count_ones (max 2 (2 ^ Nat.clog 2 n)) = 1 := by
  rcases le_total (2 ^ Nat.clog 2 n) 2 with h | h
  · rw [max_eq_left h]
    exact count_ones_two_pow 1
  · rw [max_eq_right h]
    exact count_ones_two_pow _

theorem two_le_next_pow (n : ℕ) : 2 ≤ max 2 (2 ^ Nat.clog 2 n) := le_max_left _ _

theorem lt_next_pow_of_cond {n : ℕ} (h : count_ones n ≠ 1 ∨ n < 2) :
    n < max 2 (2 ^ Nat.clog 2 n) := by
  rcases h with h | h
  · have hle : n ≤ 2 ^ Nat.clog 2 n := Nat.le_pow_clog (by omega) n
    have hne : n ≠ 2 ^ Nat.clog 2 n := by
      intro he
      exact h (he ▸ count_ones_two_pow (Nat.clog 2 n))
    exact lt_of_lt_of_le (lt_of_le_of_ne hle hne) (le_max_right _ _)
  · exact lt_of_lt_of_le h (le_max_left _ _)

theorem next_pow_succ_of_cond {n : ℕ} (h : count_ones n ≠ 1 ∨ n < 2) :
    max 2 (2 ^ Nat.clog 2 (n + 1)) = max 2 (2 ^ Nat.clog 2 n) := by
  rcases Nat.lt_or_ge n 2 with h2 | h2
  · interval_cases n
    · simp [Nat.clog_zero_right, Nat.clog_one_right]
    · rw [Nat.clog_one_right, show (1 : ℕ) + 1 = 2 ^ 1 by norm_num, Nat.clog_pow 2 1 (by omega)]
      norm_num
  · have hc : count_ones n ≠ 1 := by
      rcases h with h | h
      · exact h
      · omega
    have hlt : n < 2 ^ Nat.clog 2 n := by
      have hle : n ≤ 2 ^ Nat.clog 2 n := Nat.le_pow_clog (by omega) n
      have hne : n ≠ 2 ^ Nat.clog 2 n := by
        intro he
        exact hc (he ▸ count_ones_two_pow (Nat.clog 2 n))
      exact lt_of_le_of_ne hle hne
    have hup : Nat.clog 2 (n + 1) ≤ Nat.clog 2 n := by
      calc Nat.clog 2 (n + 1) ≤ Nat.clog 2 (2 ^ Nat.clog 2 n) :=
            Nat.clog_mono_right 2 (by omega)
        _ = Nat.clog 2 n := Nat.clog_pow 2 _ (by omega)
    have hdown : Nat.clog 2 n ≤ Nat.clog 2 (n + 1) := Nat.clog_mono_right 2 (by omega)
    rw [le_antisymm hup hdown]

theorem next_pow_eq_self {n : ℕ} (h1 : count_ones n = 1) (h2 : 2 ≤ n) :
    max 2 (2 ^ Nat.clog 2 n) = n := by
  obtain ⟨k, rfl⟩ := count_ones_eq_one h1
  rw [Nat.clog_pow 2 k (by omega)]
  exact max_eq_right h2

/-! ## The data model shared by the proof modules

`IO`, `Frame` (from `eval.rs`) and `MultiFrame` (from `circuit.rs`) are not
among the embedded source files; their record shapes are modelled from the
specification, §3 "DATA MODEL". -/

/-- Modelled from the spec: an interned term is identified by a
`(tag, digest)` pair of field elements (§3, "Expression"). -/
structure Tagged where
  tag : ℕ
  digest : ℕ
deriving DecidableEq, Repr

/-- Modelled from the spec: the IO triple `{expr, env, cont}`, the observable
state between steps (§3, "IO triple").  Each slot carries its
`(tag, digest)` pair. -/
structure IOState where
  expr : Tagged
  env : Tagged
  cont : Tagged
deriving DecidableEq, Repr

/-- Modelled from the spec: a frame `{input, output, i}` is a single
small-step transition with zero-based step index `i` (§3, "Frame"); the
witness component is irrelevant to the embedded code and omitted. -/
structure Frame where
  input : IOState
  output : IOState
  i : ℕ
deriving DecidableEq, Repr

/-- Modelled from the spec: a multi-frame
`{initial, input, output, frames, chunk_size}` (§3, "Multi-Frame"); the
store handle is omitted.  The frame sequence may be absent at verification
time. -/
structure MultiFrame where
  initial : IOState
  input : IOState
  output : IOState
  frames : Option (List Frame)
  chunk_size : ℕ
deriving DecidableEq, Repr

/-- Modelled from the spec: `precedes(prev, next) := prev.output ==
next.input` (§5, "Ordering guarantees"); the implementation lives in
`circuit.rs`, outside the embedded files. -/
def MultiFrame.precedes (prev maybe_next : MultiFrame) : Bool :=
  decide (prev.output = maybe_next.input)

namespace Groth16

/-- The body of the `while` loop in `outer_prove` (`groth16.rs`): as long as
the proof count is not a power of two at least 2, push one copy of the dummy
proof and one copy of the dummy statement. -/
def pad_loop {α β : Type} (dummy_proof : α) (dummy_statement : β)
    (proofs : List α) (statements : List β) : List α × List β :=
  if count_ones proofs.length ≠ 1 ∨ proofs.length < 2 then
    pad_loop dummy_proof dummy_statement (proofs ++ [dummy_proof])
      (statements ++ [dummy_statement])
  else
    (proofs, statements)
termination_by max 2 (2 ^ Nat.clog 2 proofs.length) - proofs.length
decreasing_by
  rename_i h
  simp only [List.length_append, List.length_cons, List.length_nil]
  rw [next_pow_succ_of_cond h]
  have := lt_next_pow_of_cond h
  omega

theorem pad_loop_spec {α β : Type} (d : α) (e : β) :
    ∀ (N : ℕ) (ps : List α) (ss : List β),
      max 2 (2 ^ Nat.clog 2 ps.length) - ps.length ≤ N →
      ∃ k, pad_loop d e ps ss = (ps ++ List.replicate k d, ss ++ List.replicate k e) ∧
        ps.length + k = max 2 (2 ^ Nat.clog 2 ps.length) := by
  intro N
  induction N with
  | zero =>
    intro ps ss h
    have hcond : ¬(count_ones ps.length ≠ 1 ∨ ps.length < 2) := by
      intro hc
      have := lt_next_pow_of_cond hc
      omega
    refine ⟨0, ?_, ?_⟩
    · rw [pad_loop, if_neg hcond]
      simp
    · have hle : ps.length ≤ 2 ^ Nat.clog 2 ps.length := Nat.le_pow_clog (by omega) _
      have : ps.length ≤ max 2 (2 ^ Nat.clog 2 ps.length) :=
        le_trans hle (le_max_right _ _)
      omega
  | succ N ih =>
    intro ps ss h
    by_cases hc : count_ones ps.length ≠ 1 ∨ ps.length < 2
    · have hT := next_pow_succ_of_cond hc
      have hlt := lt_next_pow_of_cond hc
      obtain ⟨k, hk, hlen⟩ := ih (ps ++ [d]) (ss ++ [e]) (by
        simp only [List.length_append, List.length_cons, List.length_nil]
        rw [hT]
        omega)
      refine ⟨k + 1, ?_, ?_⟩
      · rw [pad_loop, if_pos hc, hk]
        simp [List.append_assoc, List.replicate_succ]
      · simp only [List.length_append, List.length_cons, List.length_nil] at hlen
        rw [hT] at hlen
        omega
    · refine ⟨0, ?_, ?_⟩
      · rw [pad_loop, if_neg hc]
        simp
      · push_neg at hc
        obtain ⟨h1, h2⟩ := hc
        rw [next_pow_eq_self h1 (by omega)]
        omega

end Groth16

/-! ## `proof/mod.rs`: the `Prover` trait and `verify_sequential_css` -/

/-- The `Prover` trait of `proof/mod.rs`.  Its only required item is
`chunk_frame_count`; the remaining methods have default bodies and are
embedded as the functions on this structure below. -/
structure Prover where
  chunk_frame_count : ℕ
deriving DecidableEq, Repr

/-- `Prover::frame_padding_count` (default body):
`total_frames % self.chunk_frame_count()`. -/
def Prover.frame_padding_count (p : Prover) (total_frames : ℕ) : ℕ :=
  total_frames % p.chunk_frame_count

/-- `Prover::needs_frame_padding` (default body):
`self.frame_padding_count(total_frames) != 0`. -/
def Prover.needs_frame_padding (p : Prover) (total_frames : ℕ) : Bool :=
  p.frame_padding_count total_frames != 0

/-- `Prover::multiframe_padding_count` (default body): always `0`. -/
def Prover.multiframe_padding_count (_p : Prover) (_raw_multiframe_count : ℕ) : ℕ :=
  0

/-- `Prover::needs_multiframe_padding` (default body):
`self.multiframe_padding_count(raw_multiframe_count) != 0`. -/
def Prover.needs_multiframe_padding (p : Prover) (raw_multiframe_count : ℕ) : Bool :=
  p.multiframe_padding_count raw_multiframe_count != 0

/-- `Prover::expected_total_iterations` (default body). -/
def Prover.expected_total_iterations (p : Prover) (raw_iterations : ℕ) : ℕ :=
  let raw_iterations := raw_iterations + 1
  let cfc := p.chunk_frame_count
  let full_multiframe_count := raw_iterations / cfc
  let unfull_multiframe_frame_count := raw_iterations % cfc
  let raw_multiframe_count :=
    full_multiframe_count + (if unfull_multiframe_frame_count != 0 then 1 else 0)
  raw_multiframe_count + p.multiframe_padding_count raw_multiframe_count

/-- `Groth16Prover` (`groth16.rs`) keeps a chunk-frame count (its Groth16
parameters play no role in the embedded control flow).  Its `Prover`
implementation overrides only `chunk_frame_count`. -/
structure Groth16Prover where
  chunk_frame_count : ℕ
deriving DecidableEq, Repr

/-- The `Prover` implementation of `Groth16Prover`: `chunk_frame_count`
returns the stored field and every other method keeps its default body. -/
def Groth16Prover.toProver (g : Groth16Prover) : Prover :=
  { chunk_frame_count := g.chunk_frame_count }

theorem div_ceil_eq (m k : ℕ) (hk : 0 < k) :
    m / k + (if m % k = 0 then 0 else 1) = (m + k - 1) / k := by
  have hmod : m % k < k := Nat.mod_lt _ hk
  rw [show m + k - 1 = m + (k - 1) by omega, Nat.add_div hk]
  rw [Nat.div_eq_of_lt (show k - 1 < k by omega), Nat.mod_eq_of_lt (show k - 1 < k by omega)]
  by_cases h : m % k = 0
  · rw [if_pos h, if_neg (show ¬ k ≤ m % k + (k - 1) by omega)]
  · rw [if_neg h, if_pos (show k ≤ m % k + (k - 1) by omega)]

/-- The behaviour of a bellperson `TestConstraintSystem` that
`verify_sequential_css` observes: whether it is satisfied and whether it
verifies a given public-input assignment.  The library is external. -/
structure TestConstraintSystem where
  is_satisfied : Bool
  verify : List ℕ → Bool

/-- `bellperson::SynthesisError`, reduced to a single representative
variant; the embedded functions never construct one. -/
inductive SynthesisError where
  | assignmentMissing
deriving DecidableEq, Repr

/-- The loop of `verify_sequential_css` (`proof/mod.rs`) with the
`previous_frame` variable made explicit.  `public_inputs` abstracts
`MultiFrame::public_inputs`, implemented in `circuit.rs`. -/
def verify_sequential_go (public_inputs : MultiFrame → List ℕ)
    (previous_frame : Option MultiFrame) :
    List (MultiFrame × TestConstraintSystem) → Except SynthesisError Bool
  | [] => Except.ok true
  | (multiframe, cs) :: rest =>
    if (match previous_frame with
        | some prev => !(prev.precedes multiframe)
        | none => false) then
      Except.ok false
    else if !cs.is_satisfied then
      Except.ok false
    else if !(cs.verify (public_inputs multiframe)) then
      Except.ok false
    else
      verify_sequential_go public_inputs (some multiframe) rest

/-- `verify_sequential_css` (`proof/mod.rs`): walk the
multiframe/constraint-system pairs checking `precedes` chaining,
satisfaction, and verification against each multiframe's public inputs. -/
def verify_sequential_css (public_inputs : MultiFrame → List ℕ)
    (css : List (MultiFrame × TestConstraintSystem)) : Except SynthesisError Bool :=
  verify_sequential_go public_inputs none css

theorem verify_sequential_go_ok (public_inputs : MultiFrame → List ℕ) :
    ∀ (css : List (MultiFrame × TestConstraintSystem)) (prev : Option MultiFrame),
      verify_sequential_go public_inputs prev css = Except.ok true ∨
        verify_sequential_go public_inputs prev css = Except.ok false := by
  intro css
  induction css with
  | nil => intro prev; left; rfl
  | cons hd tl ih =>
    intro prev
    obtain ⟨mf, cs⟩ := hd
    simp only [verify_sequential_go]
    split
    · right; rfl
    · split
      · right; rfl
      · split
        · right; rfl
        · exact ih (some mf)

theorem verify_sequential_go_iff (public_inputs : MultiFrame → List ℕ) :
    ∀ (css : List (MultiFrame × TestConstraintSystem)) (prev : Option MultiFrame),
      verify_sequential_go public_inputs prev css = Except.ok true ↔
        (List.Chain' (fun a b => a.precedes b = true) (prev.toList ++ css.map Prod.fst) ∧
          ∀ p ∈ css, p.2.is_satisfied = true ∧ p.2.verify (public_inputs p.1) = true) := by
  intro css
  induction css with
  | nil =>
    intro prev
    cases prev <;> simp [verify_sequential_go]
  | cons hd tl ih =>
    intro prev
    obtain ⟨mf, cs⟩ := hd
    cases prev with
    | none =>
      by_cases hs : cs.is_satisfied = true
      · by_cases hv : cs.verify (public_inputs mf) = true
        · have : verify_sequential_go public_inputs none ((mf, cs) :: tl) =
              verify_sequential_go public_inputs (some mf) tl := by
            simp [verify_sequential_go, hs, hv]
          rw [this, ih (some mf)]
          simp [hs, hv, and_assoc]
        · have : verify_sequential_go public_inputs none ((mf, cs) :: tl) =
              Except.ok false := by
            simp [verify_sequential_go, hs, hv]
          rw [this]
          simp [hv]
      · have : verify_sequential_go public_inputs none ((mf, cs) :: tl) =
            Except.ok false := by
          simp [verify_sequential_go, hs]
        rw [this]
        simp [hs]
    | some p =>
      by_cases hp : p.precedes mf = true
      · by_cases hs : cs.is_satisfied = true
        · by_cases hv : cs.verify (public_inputs mf) = true
          · have : verify_sequential_go public_inputs (some p) ((mf, cs) :: tl) =
                verify_sequential_go public_inputs (some mf) tl := by
              simp [verify_sequential_go, hp, hs, hv]
            rw [this, ih (some mf)]
            simp [hp, hs, hv, List.chain'_cons, and_assoc]
          · have : verify_sequential_go public_inputs (some p) ((mf, cs) :: tl) =
                Except.ok false := by
              simp [verify_sequential_go, hp, hs, hv]
            rw [this]
            simp [hv]
        · have : verify_sequential_go public_inputs (some p) ((mf, cs) :: tl) =
              Except.ok false := by
            simp [verify_sequential_go, hp, hs]
          rw [this]
          simp [hs]
      · have : verify_sequential_go public_inputs (some p) ((mf, cs) :: tl) =
            Except.ok false := by
          simp [verify_sequential_go, hp]
        rw [this]
        simp [List.chain'_cons, hp]

/-! ## `groth16.rs`: constants, SRS loading, `outer_prove`, `verify` -/

namespace Groth16

/-- `DUMMY_RNG_SEED` (`groth16.rs`): the fixed 16-byte seed used for the
fake SRS and the deterministic Groth16 parameters. -/
def DUMMY_RNG_SEED : List ℕ :=
  [0x01, 0x03, 0x02, 0x04, 0x05, 0x07, 0x06, 0x08,
   0x09, 0x0A, 0x0B, 0x0C, 0x0D, 0x0C, 0x0B, 0x0A]

/-- `MAX_FAKE_SRS_SIZE` (`groth16.rs`): `(2 << 14) + 1`. -/
def MAX_FAKE_SRS_SIZE : ℕ := (2 <<< 14) + 1

/-- `TRANSCRIPT_INCLUDE` (`groth16.rs`): the byte string `b"LURK-CIRCUIT"`,
as the list of its byte values. -/
def TRANSCRIPT_INCLUDE : List ℕ := "LURK-CIRCUIT".toList.map Char.toNat

/-- `FALLBACK_TO_FAKE_SRS` (`groth16.rs`): compiled in as `true`. -/
def FALLBACK_TO_FAKE_SRS : Bool := true

/-- Modelled from the spec: the operating-system and SNARK-library
primitives `load_srs` consumes, gathered as a record of black boxes —
`env::current_dir`, `File::open`, `MmapOptions::map`,
`GenericSRS::read_mmap`, and `setup_fake_srs`, the last as a pure function
of the seed bytes and size since `XorShiftRng::from_seed` is deterministic
(§4.E "Setup", §6 "SRS file"). -/
structure SrsEnv (File Mm Srs IoErr : Type) where
  current_dir : Except IoErr String
  open_file : String → Except IoErr File
  map : File → Except IoErr Mm
  read_mmap : Mm → ℕ → Except IoErr Srs
  setup_fake_srs : List ℕ → ℕ → Srs

/-- `load_srs` (`groth16.rs`) with the compile-time constant
`FALLBACK_TO_FAKE_SRS` generalized to an argument, so that both
configurations can be stated. -/
def load_srs_with {File Mm Srs IoErr : Type} (fallback_to_fake_srs : Bool)
    (env : SrsEnv File Mm Srs IoErr) : Except IoErr Srs :=
  match env.current_dir with
  | Except.error e => Except.error e
  | Except.ok dir =>
    match env.open_file (dir ++ "/params/v28-fil-inner-product-v1.srs") with
    | Except.ok f =>
      match env.map f with
      | Except.error e => Except.error e
      | Except.ok srs_map => env.read_mmap srs_map MAX_FAKE_SRS_SIZE
    | Except.error e =>
      if fallback_to_fake_srs then
        Except.ok (env.setup_fake_srs DUMMY_RNG_SEED MAX_FAKE_SRS_SIZE)
      else
        Except.error e

/-- `load_srs` (`groth16.rs`) as compiled: with
`fallback_to_fake_srs := FALLBACK_TO_FAKE_SRS`. -/
def load_srs {File Mm Srs IoErr : Type} (env : SrsEnv File Mm Srs IoErr) :
    Except IoErr Srs :=
  load_srs_with FALLBACK_TO_FAKE_SRS env

/-- The observable result of running a Rust function that may panic: the
process aborts (`panic!`, `unwrap` on `None`/`Err`, a failed `assert`), or
the function returns a value. -/
inductive RunOutcome (α : Type) where
  | aborted (msg : String) : RunOutcome α
  | returns (val : α) : RunOutcome α
deriving DecidableEq, Repr

/-- The `Proof` struct of `groth16.rs`: an aggregated proof together with
`proof_count` and `chunk_frame_count`. -/
structure Proof (Agg : Type) where
  proof : Agg
  proof_count : ℕ
  chunk_frame_count : ℕ
deriving DecidableEq, Repr

/-- The first loop of `outer_prove`: push each multiframe's public inputs
onto `statements` and its Groth16 proof onto `proofs`, `unwrap`ping the
proof result (`none` models the panic on a failed proof).
`generate_groth16_proof` is abstracted as `prove_fn` and
`MultiFrame::public_inputs` (in `circuit.rs`) as `public_inputs`. -/
def prove_all {Pf Err : Type} (prove_fn : MultiFrame → Except Err Pf)
    (public_inputs : MultiFrame → List ℕ) :
    List MultiFrame → Option (List (List ℕ) × List Pf)
  | [] => some ([], [])
  | multiframe :: rest =>
    match prove_fn multiframe with
    | Except.error _ => none
    | Except.ok proof =>
      match prove_all prove_fn public_inputs rest with
      | none => none
      | some (statements, proofs) =>
        some (public_inputs multiframe :: statements, proof :: proofs)

/-- The padding step of `outer_prove`: when the proof count is not a power
of two at least 2, build the dummy multiframe from the last frame of the
last multiframe (`MultiFrame::make_dummy`, in `circuit.rs`, is abstracted
as `make_dummy`), prove it (`none` models the panic of the `unwrap` on
failure), and run the padding loop. -/
def apply_padding {Pf Err : Type} (chunk_frame_count : ℕ)
    (prove_fn : MultiFrame → Except Err Pf) (public_inputs : MultiFrame → List ℕ)
    (make_dummy : ℕ → Option Frame → MultiFrame) (last_multiframe : MultiFrame)
    (proofs : List Pf) (statements : List (List ℕ)) :
    Option (List Pf × List (List ℕ)) :=
  if count_ones proofs.length ≠ 1 ∨ proofs.length < 2 then
    let dummy_multiframe :=
      make_dummy chunk_frame_count (last_multiframe.frames.bind List.getLast?)
    match prove_fn dummy_multiframe with
    | Except.error _ => none
    | Except.ok dummy_proof =>
      some (pad_loop dummy_proof (public_inputs dummy_multiframe) proofs statements)
  else
    some (proofs, statements)

/-- `Groth16::outer_prove` (`groth16.rs`).  Collaborators implemented
outside the embedded files are parameters: `prove_fn` for
`generate_groth16_proof`, `public_inputs` for `MultiFrame::public_inputs`,
`make_dummy` for `MultiFrame::make_dummy`, `specialize` for the first
component of `GenericSRS::specialize_input_aggregation`, `aggregate` for
`aggregate_proofs_and_instances`; the frame and multiframe vectors produced
by `Evaluator::generate_frames` and `MultiFrame::from_frames` are taken as
inputs.  Every panic (`unwrap` on an empty vector or a failed proof, the
`assert_eq!` on the padded statement count, out-of-range indexing of
`frames`) is modelled as `RunOutcome.aborted`. -/
def outer_prove {Pf Agg Srs Err : Type} (chunk_frame_count : ℕ)
    (prove_fn : MultiFrame → Except Err Pf) (public_inputs : MultiFrame → List ℕ)
    (make_dummy : ℕ → Option Frame → MultiFrame) (specialize : Srs → ℕ → Srs)
    (aggregate : Srs → List ℕ → List (List ℕ) → List Pf → Except Err Agg)
    (srs : Srs) (frames : List Frame) (multiframes : List MultiFrame) :
    RunOutcome (Except Err (Proof Agg × IOState × IOState)) :=
  match multiframes.getLast? with
  | none => RunOutcome.aborted "Option::unwrap on None"
  | some last_multiframe =>
    match prove_all prove_fn public_inputs multiframes with
    | none => RunOutcome.aborted "Result::unwrap on Err"
    | some (statements, proofs) =>
      match apply_padding chunk_frame_count prove_fn public_inputs make_dummy
          last_multiframe proofs statements with
      | none => RunOutcome.aborted "Result::unwrap on Err"
      | some (proofs, statements) =>
        if count_ones statements.length ≠ 1 then
          RunOutcome.aborted "assertion failed"
        else
          let srs := specialize srs proofs.length
          match aggregate srs TRANSCRIPT_INCLUDE statements proofs with
          | Except.error e => RunOutcome.returns (Except.error e)
          | Except.ok proof =>
            match frames.head?, frames.getLast? with
            | some first_frame, some last_frame =>
              RunOutcome.returns (Except.ok
                ({ proof := proof, proof_count := proofs.length,
                   chunk_frame_count := chunk_frame_count },
                  first_frame.input, last_frame.output))
            | _, _ => RunOutcome.aborted "index out of bounds"

/-- `Groth16::verify` (`groth16.rs`): delegate to
`verify_aggregate_proof_and_aggregate_instances` (abstracted as
`verify_aggregate`) with the fixed transcript domain separator. -/
def verify {Pvk SrsVk Agg Rng Err : Type}
    (verify_aggregate :
      SrsVk → Pvk → Rng → List ℕ → List ℕ → Agg → List ℕ → Except Err Bool)
    (pvk : Pvk) (srs_vk : SrsVk) (public_inputs public_outputs : List ℕ)
    (proof : Agg) (rng : Rng) : Except Err Bool :=
  verify_aggregate srs_vk pvk rng public_inputs public_outputs proof TRANSCRIPT_INCLUDE

end Groth16

/-! ## `proof.rs`: `CircuitFrame` and its `Provable` implementation -/

/-- `IO::public_inputs` (`proof.rs`): the six field elements
`[expr.tag, expr.hash, env.tag, env.hash, cont.tag, cont.hash]`. -/
def IOState.public_inputs (io : IOState) : List ℕ :=
  [io.expr.tag, io.expr.digest,
   io.env.tag, io.env.digest,
   io.cont.tag, io.cont.digest]

/-- The `CircuitFrame` struct of `circuit.rs` as used by `proof.rs`: all
four data fields are optional (the store handle is omitted, and the witness
plays no role in `public_inputs`). -/
structure CircuitFrame where
  input : Option IOState
  output : Option IOState
  initial : Option IOState
  i : Option ℕ
deriving DecidableEq, Repr

/-- `Provable::public_inputs` for `CircuitFrame` (`proof.rs`): extend with
the input's, then the output's, then the initial triple's elements, then
push the step index (`fr_from_u64` is injective on indices and modelled as
the identity). -/
def CircuitFrame.public_inputs (frame : CircuitFrame) : List ℕ :=
  (frame.input.elim [] IOState.public_inputs) ++
    (frame.output.elim [] IOState.public_inputs) ++
    (frame.initial.elim [] IOState.public_inputs) ++
    (frame.i.elim [] (fun i => [i]))

/-- The public-input vector in the order the specification states it
(§4.D "Public-input schema"): the initial triple first, then the input
triple, then the output triple, then the step index.  Stated only to be
compared against `CircuitFrame.public_inputs`. -/
def CircuitFrame.spec_order_public_inputs (frame : CircuitFrame) : List ℕ :=
  (frame.initial.elim [] IOState.public_inputs) ++
    (frame.input.elim [] IOState.public_inputs) ++
    (frame.output.elim [] IOState.public_inputs) ++
    (frame.i.elim [] (fun i => [i]))

/-- Modelled from the spec: `Provable::public_input_size` — declared in
`proof/mod.rs` but implemented in `circuit.rs`, outside the embedded files;
the spec fixes it to `3 * 6 + 1 = 19` (§4.D). -/
def public_input_size : ℕ := 3 * 6 + 1

/-! ## `parser.rs`: the reader

The `Pool` store (`pool.rs`) is outside the embedded files; interned `Ptr`
values are modelled by the terms themselves (hash-consing makes
allocation injective), following the term model of §3 of the spec.  The
reader's iterator state is threaded explicitly as the list of remaining
characters, and the mutually recursive reader functions carry a fuel
argument so that they are structurally recursive; `timeout` never arises
for the inputs considered below. -/

/-- Modelled from the spec: the parsed term model (§3 "Expression" and §6
"Concrete source grammar") — what a `Ptr` returned by the reader denotes. -/
inductive SynExpr where
  | nil : SynExpr
  | num (n : ℕ) : SynExpr
  | sym (name : String) : SynExpr
  | str (contents : String) : SynExpr
  | cons (car cdr : SynExpr) : SynExpr
deriving DecidableEq, Repr

/-- Modelled from the spec: `Pool::alloc_nil`. -/
def alloc_nil : SynExpr := SynExpr.nil

/-- Modelled from the spec: `Pool::alloc_num`. -/
def alloc_num (n : ℕ) : SynExpr := SynExpr.num n

/-- Modelled from the spec: `Pool::alloc_sym` — symbol names are case-folded
to upper case (§6) and the reserved symbol `NIL` denotes the empty list. -/
def alloc_sym (name : String) : SynExpr :=
  let upper := name.toUpper
  if upper = "NIL" then SynExpr.nil else SynExpr.sym upper

/-- Modelled from the spec: `Pool::alloc_str`. -/
def alloc_str (contents : String) : SynExpr := SynExpr.str contents

/-- Modelled from the spec: `Pool::alloc_cons`. -/
def alloc_cons (car cdr : SynExpr) : SynExpr := SynExpr.cons car cdr

/-- Modelled from the spec: `Pool::alloc_list` — a right-nested cons list
ending in `NIL` (§3 "Cons"). -/
def alloc_list (elts : List SynExpr) : SynExpr :=
  elts.foldr SynExpr.cons SynExpr.nil

/-- `SynExpr.is_nil`, as `Ptr::is_nil` used by `read_tail`'s assertion. -/
def SynExpr.is_nil : SynExpr → Bool
  | SynExpr.nil => true
  | _ => false

/-- The space character, written by code point to keep literals simple. -/
def charSpace : Char := Char.ofNat 32
/-- The tab character. -/
def charTab : Char := Char.ofNat 9
/-- The line-feed character. -/
def charLF : Char := Char.ofNat 10
/-- The carriage-return character. -/
def charCR : Char := Char.ofNat 13
/-- The single-quote character. -/
def charQuote : Char := Char.ofNat 39
/-- The double-quote character. -/
def charDQuote : Char := Char.ofNat 34

/-- `is_symbol_char` (`parser.rs`). -/
def is_symbol_char (c : Char) (initial : Bool) : Bool :=
  if ('a' ≤ c ∧ c ≤ 'z') ∨ ('A' ≤ c ∧ c ≤ 'Z') ∨
      c = '+' ∨ c = '-' ∨ c = '*' ∨ c = '/' ∨ c = '=' ∨ c = ':' then
    true
  else if initial then
    false
  else
    '0' ≤ c ∧ c ≤ '9'

/-- `is_digit_char` (`parser.rs`). -/
def is_digit_char (c : Char) : Bool :=
  '0' ≤ c ∧ c ≤ '9'

/-- `is_whitespace_char` (`parser.rs`). -/
def is_whitespace_char (c : Char) : Bool :=
  c = charSpace ∨ c = charTab ∨ c = charLF ∨ c = charCR

/-- `is_comment_char` (`parser.rs`). -/
def is_comment_char (c : Char) : Bool :=
  c = ';'

/-- `is_line_end_char` (`parser.rs`). -/
def is_line_end_char (c : Char) : Bool :=
  c = charLF ∨ c = charCR

/-- `skip_line_comment` (`parser.rs`): consume characters up to but not
including the next line end; the boolean records whether a line end was
found (false means the comment ran to the end of input). -/
def skip_line_comment : List Char → Bool × List Char
  | [] => (false, [])
  | c :: cs =>
    if ¬ is_line_end_char c then
      skip_line_comment cs
    else
      (true, c :: cs)

/-- The loop of `skip_whitespace_and_peek` (`parser.rs`), driven by a fuel
argument (one unit per iteration, each iteration consuming at least one
character) so that it is structurally recursive and evaluates inside the
kernel; the wrapper supplies fuel exceeding the input length, so the
fuel-exhausted arm is never reached. -/
def skip_whitespace_and_peek_go : ℕ → List Char → Option Char × List Char
  | _, [] => (none, [])
  | fuel + 1, c :: cs =>
    if is_whitespace_char c then
      skip_whitespace_and_peek_go fuel cs
    else if is_comment_char c then
      skip_whitespace_and_peek_go fuel (skip_line_comment (c :: cs)).2
    else
      (some c, c :: cs)
  | 0, c :: cs => (none, c :: cs)

/-- `skip_whitespace_and_peek` (`parser.rs`): skip whitespace and comments,
returning the next character (unconsumed), if any. -/
def skip_whitespace_and_peek (chars : List Char) : Option Char × List Char :=
  skip_whitespace_and_peek_go (chars.length + 1) chars

/-- The string-accumulation loop of `Pool::read_string` (`parser.rs`). -/
def read_string_go (result : String) : List Char → Option SynExpr × List Char
  | [] => (none, [])
  | c :: cs =>
    if c = charDQuote then
      (some (alloc_str result), cs)
    else
      read_string_go (result.push c) cs

namespace Pool

/-- `Pool::read_string` (`parser.rs`). -/
def read_string (chars : List Char) : Option SynExpr × List Char :=
  match skip_whitespace_and_peek chars with
  | (some c, cs) =>
    if c = charDQuote then
      read_string_go "" (cs.drop 1)
    else
      (none, cs)
  | (none, cs) => (none, cs)

/-- The digit-accumulation loop of `Pool::read_number` (`parser.rs`);
`u64` arithmetic is modelled on `ℕ`. -/
def read_number_go (acc : ℕ) : List Char → ℕ × List Char
  | [] => (acc, [])
  | c :: cs =>
    if is_digit_char c then
      read_number_go ((if acc ≠ 0 then acc * 10 else acc) + (c.toNat - 48)) cs
    else
      (acc, c :: cs)

/-- `Pool::read_number` (`parser.rs`): never returns `none`. -/
def read_number (chars : List Char) : Option SynExpr × List Char :=
  match read_number_go 0 chars with
  | (acc, rest) => (some (alloc_num acc), rest)

/-- The name-accumulation loop of `Pool::read_symbol` (`parser.rs`). -/
def read_symbol_go (name : String) (is_initial : Bool) :
    List Char → String × List Char
  | [] => (name, [])
  | c :: cs =>
    if is_symbol_char c is_initial then
      read_symbol_go (name.push c) false cs
    else
      (name, c :: cs)

/-- `Pool::read_symbol` (`parser.rs`): never returns `none`. -/
def read_symbol (chars : List Char) : Option SynExpr × List Char :=
  match read_symbol_go "" true chars with
  | (name, rest) => (some (alloc_sym name), rest)

/-- What a run of a reader function observably does: runs out of fuel
(never the case for the inputs considered), panics, or returns the Rust
function's `Option<Ptr>` value together with the remaining characters. -/
inductive ParseOutcome where
  | timeout : ParseOutcome
  | aborted (msg : String) : ParseOutcome
  | done (val : Option SynExpr) (rest : List Char) : ParseOutcome
deriving DecidableEq, Repr

mutual

/-- `Pool::read_next` (`parser.rs`).  Each arm of the Rust `match` either
returns a parsed expression, or yields `None` after which the surrounding
`while let` loop continues with the already-advanced iterator; an input
character matching no arm hits `panic!("bad input character")`. -/
def read_next (fuel : ℕ) (chars : List Char) : ParseOutcome :=
  match fuel with
  | 0 => ParseOutcome.timeout
  | fuel + 1 =>
    match chars with
    | [] => ParseOutcome.done none []
    | c :: cs =>
      if c = '(' then
        match read_list fuel (c :: cs) with
        | ParseOutcome.timeout => ParseOutcome.timeout
        | ParseOutcome.aborted msg => ParseOutcome.aborted msg
        | ParseOutcome.done (some e) rest => ParseOutcome.done (some e) rest
        | ParseOutcome.done none rest => read_next fuel rest
      else if is_digit_char c then
        match read_number (c :: cs) with
        | (some e, rest) => ParseOutcome.done (some e) rest
        | (none, rest) => read_next fuel rest
      else if is_whitespace_char c then
        read_next fuel cs
      else if c = charQuote then
        match read_next fuel cs with
        | ParseOutcome.timeout => ParseOutcome.timeout
        | ParseOutcome.aborted msg => ParseOutcome.aborted msg
        | ParseOutcome.done none rest => ParseOutcome.done none rest
        | ParseOutcome.done (some quoted) rest =>
          ParseOutcome.done
            (some (alloc_cons (alloc_sym "quote") (alloc_list [quoted]))) rest
      else if c = charDQuote then
        match read_string (c :: cs) with
        | (some e, rest) => ParseOutcome.done (some e) rest
        | (none, rest) => read_next fuel rest
      else if c = ';' then
        read_next fuel (skip_line_comment cs).2
      else if is_symbol_char c true then
        match read_symbol (c :: cs) with
        | (some e, rest) => ParseOutcome.done (some e) rest
        | (none, rest) => read_next fuel rest
      else
        ParseOutcome.aborted "bad input character"

/-- `Pool::read_list` (`parser.rs`): discard the opening parenthesis and
read the tail. -/
def read_list (fuel : ℕ) (chars : List Char) : ParseOutcome :=
  match fuel with
  | 0 => ParseOutcome.timeout
  | fuel + 1 =>
    match chars with
    | [] => ParseOutcome.done none []
    | c :: cs =>
      if c = '(' then
        read_tail fuel cs
      else
        ParseOutcome.done none (c :: cs)

/-- `Pool::read_tail` (`parser.rs`).  Running out of input hits
`panic!("premature end of input")`; the inner `read_next`/`read_tail`
results are `unwrap`ped, and the dotted-tail case `assert!`s that the
remaining tail is `NIL`. -/
def read_tail (fuel : ℕ) (chars : List Char) : ParseOutcome :=
  match fuel with
  | 0 => ParseOutcome.timeout
  | fuel + 1 =>
    match skip_whitespace_and_peek chars with
    | (none, _) => ParseOutcome.aborted "premature end of input"
    | (some c, cs) =>
      if c = ')' then
        ParseOutcome.done (some alloc_nil) (cs.drop 1)
      else if c = '.' then
        match read_next fuel (cs.drop 1) with
        | ParseOutcome.timeout => ParseOutcome.timeout
        | ParseOutcome.aborted msg => ParseOutcome.aborted msg
        | ParseOutcome.done none _ => ParseOutcome.aborted "Option::unwrap on None"
        | ParseOutcome.done (some cdr) rest =>
          match read_tail fuel rest with
          | ParseOutcome.timeout => ParseOutcome.timeout
          | ParseOutcome.aborted msg => ParseOutcome.aborted msg
          | ParseOutcome.done none _ => ParseOutcome.aborted "Option::unwrap on None"
          | ParseOutcome.done (some remaining_tail) rest2 =>
            if remaining_tail.is_nil then
              ParseOutcome.done (some cdr) rest2
            else
              ParseOutcome.aborted "assertion failed"
      else
        match read_next fuel cs with
        | ParseOutcome.timeout => ParseOutcome.timeout
        | ParseOutcome.aborted msg => ParseOutcome.aborted msg
        | ParseOutcome.done none _ => ParseOutcome.aborted "Option::unwrap on None"
        | ParseOutcome.done (some car) rest =>
          match read_tail fuel rest with
          | ParseOutcome.timeout => ParseOutcome.timeout
          | ParseOutcome.aborted msg => ParseOutcome.aborted msg
          | ParseOutcome.done none _ => ParseOutcome.aborted "Option::unwrap on None"
          | ParseOutcome.done (some rest_expr) rest2 =>
            ParseOutcome.done (some (alloc_cons car rest_expr)) rest2

end

/-- `Pool::read` (`parser.rs`): read the next expression from the input
string.  The fuel is generous for the input length; it is never exhausted
on the concrete inputs considered in the theorems below. -/
def read (input : String) : ParseOutcome :=
  read_next (4 * input.length + 16) input.toList

end Pool

/-! ## Supporting lemmas about `prove_all` and `apply_padding` -/

namespace Groth16

theorem prove_all_lengths {Pf Err : Type} (prove_fn : MultiFrame → Except Err Pf)
    (public_inputs : MultiFrame → List ℕ) :
    ∀ (l : List MultiFrame) (ss : List (List ℕ)) (ps : List Pf),
      prove_all prove_fn public_inputs l = some (ss, ps) →
      ss.length = l.length ∧ ps.length = l.length := by
  intro l
  induction l with
  | nil =>
    intro ss ps h
    simp only [prove_all, Option.some.injEq, Prod.mk.injEq] at h
    obtain ⟨h1, h2⟩ := h
    simp [← h1, ← h2]
  | cons mf rest ih =>
    intro ss ps h
    simp only [prove_all] at h
    cases hf : prove_fn mf with
    | error e => rw [hf] at h; simp at h
    | ok p =>
      rw [hf] at h
      cases hr : prove_all prove_fn public_inputs rest with
      | none => rw [hr] at h; simp at h
      | some pair =>
        obtain ⟨ss', ps'⟩ := pair
        rw [hr] at h
        simp only [Option.some.injEq, Prod.mk.injEq] at h
        obtain ⟨h1, h2⟩ := h
        obtain ⟨hl1, hl2⟩ := ih ss' ps' hr
        simp [← h1, ← h2, hl1, hl2]

theorem prove_all_ok {Pf Err : Type} (prove_fn : MultiFrame → Except Err Pf)
    (public_inputs : MultiFrame → List ℕ) :
    ∀ (l : List MultiFrame),
      (∀ mf ∈ l, ∃ p, prove_fn mf = Except.ok p) →
      ∃ ss ps, prove_all prove_fn public_inputs l = some (ss, ps) := by
  intro l
  induction l with
  | nil => intro _; exact ⟨[], [], rfl⟩
  | cons mf rest ih =>
    intro hok
    obtain ⟨p, hp⟩ := hok mf (List.mem_cons_self mf rest)
    obtain ⟨ss, ps, hrest⟩ := ih (fun mf' hm => hok mf' (List.mem_cons_of_mem _ hm))
    refine ⟨public_inputs mf :: ss, p :: ps, ?_⟩
    simp only [prove_all]
    rw [hp, hrest]

theorem prove_all_err {Pf Err : Type} (prove_fn : MultiFrame → Except Err Pf)
    (public_inputs : MultiFrame → List ℕ) :
    ∀ (l : List MultiFrame),
      (∃ mf ∈ l, ∃ e, prove_fn mf = Except.error e) →
      prove_all prove_fn public_inputs l = none := by
  intro l
  induction l with
  | nil =>
    rintro ⟨mf, hmem, _⟩
    simp at hmem
  | cons mf rest ih =>
    rintro ⟨mf', hmem, e, he⟩
    simp only [prove_all]
    rcases List.mem_cons.mp hmem with rfl | hmem'
    · rw [he]
    · cases hf : prove_fn mf with
      | error e2 => rfl
      | ok p => rw [ih ⟨mf', hmem', e, he⟩]

theorem apply_padding_full {Pf Err : Type} (chunk_frame_count : ℕ)
    (prove_fn : MultiFrame → Except Err Pf) (public_inputs : MultiFrame → List ℕ)
    (make_dummy : ℕ → Option Frame → MultiFrame) (last_multiframe : MultiFrame)
    (proofs : List Pf) (statements : List (List ℕ))
    (hdummy : ∃ p,
      prove_fn (make_dummy chunk_frame_count
        (last_multiframe.frames.bind List.getLast?)) = Except.ok p) :
    ∃ (k : ℕ) (out : List Pf × List (List ℕ)),
      apply_padding chunk_frame_count prove_fn public_inputs make_dummy
          last_multiframe proofs statements = some out ∧
      out.1.length = proofs.length + k ∧
      out.2.length = statements.length + k ∧
      proofs.length + k = max 2 (2 ^ Nat.clog 2 proofs.length) ∧
      (∀ dp, prove_fn (make_dummy chunk_frame_count
          (last_multiframe.frames.bind List.getLast?)) = Except.ok dp →
        out.1 = proofs ++ List.replicate k dp) ∧
      out.2 = statements ++ List.replicate k
        (public_inputs (make_dummy chunk_frame_count
          (last_multiframe.frames.bind List.getLast?))) := by
  by_cases hc : count_ones proofs.length ≠ 1 ∨ proofs.length < 2
  · obtain ⟨dp, hdp⟩ := hdummy
    obtain ⟨k, hpad, hlen⟩ :=
      pad_loop_spec dp
        (public_inputs (make_dummy chunk_frame_count
          (last_multiframe.frames.bind List.getLast?)))
        (max 2 (2 ^ Nat.clog 2 proofs.length) - proofs.length) proofs statements le_rfl
    refine ⟨k, pad_loop dp
        (public_inputs (make_dummy chunk_frame_count
          (last_multiframe.frames.bind List.getLast?))) proofs statements,
      ?_, ?_, ?_, ?_, ?_, ?_⟩
    · rw [apply_padding, if_pos hc]
      simp [hdp]
    · rw [hpad]; simp
    · rw [hpad]; simp
    · exact hlen
    · intro dp' hdp'
      rw [hdp] at hdp'
      injection hdp' with heq
      subst heq
      rw [hpad]
    · rw [hpad]
  · push_neg at hc
    obtain ⟨h1, h2⟩ := hc
    refine ⟨0, (proofs, statements), ?_, by simp, by simp, ?_, ?_, by simp⟩
    · rw [apply_padding, if_neg (by push_neg; exact ⟨h1, by omega⟩)]
    · rw [next_pow_eq_self h1 (by omega)]
      omega
    · intro dp _
      simp

theorem apply_padding_inv {Pf Err : Type} (chunk_frame_count : ℕ)
    (prove_fn : MultiFrame → Except Err Pf) (public_inputs : MultiFrame → List ℕ)
    (make_dummy : ℕ → Option Frame → MultiFrame) (last_multiframe : MultiFrame)
    (proofs : List Pf) (statements : List (List ℕ))
    (out : List Pf × List (List ℕ))
    (h : apply_padding chunk_frame_count prove_fn public_inputs make_dummy
        last_multiframe proofs statements = some out) :
    ∃ k, out.1.length = proofs.length + k ∧
      out.2.length = statements.length + k ∧
      proofs.length + k = max 2 (2 ^ Nat.clog 2 proofs.length) := by
  by_cases hc : count_ones proofs.length ≠ 1 ∨ proofs.length < 2
  · rw [apply_padding, if_pos hc] at h
    cases hdp : prove_fn (make_dummy chunk_frame_count
        (last_multiframe.frames.bind List.getLast?)) with
    | error e => simp [hdp] at h
    | ok dp =>
      simp only [hdp, Option.some.injEq] at h
      obtain ⟨k, hpad, hlen⟩ :=
        pad_loop_spec dp
          (public_inputs (make_dummy chunk_frame_count
            (last_multiframe.frames.bind List.getLast?)))
          (max 2 (2 ^ Nat.clog 2 proofs.length) - proofs.length) proofs statements le_rfl
      refine ⟨k, ?_, ?_, hlen⟩
      · rw [← h, hpad]; simp
      · rw [← h, hpad]; simp
  · rw [apply_padding, if_neg hc] at h
    push_neg at hc
    obtain ⟨h1, h2⟩ := hc
    simp only [Option.some.injEq] at h
    refine ⟨0, by rw [← h]; simp, by rw [← h]; simp, ?_⟩
    rw [next_pow_eq_self h1 (by omega)]
    omega

end Groth16

/-! ## Concrete sample values used by the witness theorems -/

/-- A sample IO triple. -/
def io_a : IOState := ⟨⟨1, 2⟩, ⟨3, 4⟩, ⟨5, 6⟩⟩

/-- A second sample IO triple, distinct from `io_a`. -/
def io_b : IOState := ⟨⟨7, 8⟩, ⟨9, 10⟩, ⟨11, 12⟩⟩

/-- A third sample IO triple, distinct from the other two. -/
def io_c : IOState := ⟨⟨13, 14⟩, ⟨15, 16⟩, ⟨17, 18⟩⟩

/-- A sample frame from `io_a` to `io_b`. -/
def frame_a : Frame := ⟨io_a, io_b, 0⟩

/-- A sample multiframe with no inner frame sequence. -/
def mf_a : MultiFrame := ⟨io_a, io_a, io_b, none, 1⟩

/-- A sample SRS environment over `ℕ` whose file open always fails with
error code 7 and whose fake-SRS generator returns the requested size. -/
def srs_env_a : Groth16.SrsEnv ℕ ℕ ℕ ℕ :=
  { current_dir := Except.ok ""
    open_file := fun _ => Except.error 7
    map := fun _ => Except.error 0
    read_mmap := fun _ _ => Except.error 0
    setup_fake_srs := fun _ size => size }

/-! ## The claims -/

/-- C1, counterexample: on a concrete frame whose four fields are all
present and whose three IO triples are pairwise distinct, the public-input
vector produced by `public_inputs()` differs from the vector in the order
the claim states (initial first, then input, then output, then the index):
the code emits input first, then output, then initial, then the index. -/
theorem c1_public_inputs_counterexample :
    CircuitFrame.public_inputs
        { input := some io_a, output := some io_b, initial := some io_c,
          i := some 42 } ≠
      CircuitFrame.spec_order_public_inputs
        { input := some io_a, output := some io_b, initial := some io_c,
          i := some 42 } := by
  decide

/-- C1 (amended): for every frame whose input, output, initial and index
fields are all present, the public-input vector produced by
`public_inputs()` consists of exactly 19 field elements ordered as the
(tag, digest) pairs of input.expr, input.env, input.cont, then of
output.expr, output.env, output.cont, then of initial.expr, initial.env,
initial.cont, followed by the step index `i`; and `public_input_size()`
equals 19. -/
theorem c1_public_inputs_shape (input output initial : IOState) (idx : ℕ) :
    CircuitFrame.public_inputs
        { input := some input, output := some output,
          initial := some initial, i := some idx } =
      [input.expr.tag, input.expr.digest, input.env.tag, input.env.digest,
       input.cont.tag, input.cont.digest,
       output.expr.tag, output.expr.digest, output.env.tag, output.env.digest,
       output.cont.tag, output.cont.digest,
       initial.expr.tag, initial.expr.digest, initial.env.tag, initial.env.digest,
       initial.cont.tag, initial.cont.digest, idx] ∧
    (CircuitFrame.public_inputs
        { input := some input, output := some output,
          initial := some initial, i := some idx }).length = 19 ∧
    public_input_size = 19 :=
  ⟨rfl, rfl, rfl⟩

/-- C3, counterexample: `Pool::read` does not report every malformed source
string to its caller — on the input "#", whose character belongs to no
production of the grammar, it panics with "bad input character" instead of
returning. -/
theorem c3_read_counterexample :
    Pool.read "#" = Pool.ParseOutcome.aborted "bad input character" := by
  decide

/-- C3 (amended): `Pool::read` reports some malformed inputs to its caller
by returning without a term — an unterminated string literal yields no
expression — but it aborts the process (panics) on an input containing a
character outside the grammar and on an unterminated list. -/
theorem c3_read_malformed :
    Pool.read "\"asdf" = Pool.ParseOutcome.done none [] ∧
    Pool.read "(1" = Pool.ParseOutcome.aborted "premature end of input" ∧
    Pool.read ")" = Pool.ParseOutcome.aborted "bad input character" := by
  refine ⟨by decide, by decide, by decide⟩

/-- C4: for every prover with `chunk_frame_count` k ≥ 1 and every total
frame count, `frame_padding_count(total_frames)` equals
`total_frames mod k`, and `needs_frame_padding(total_frames)` holds exactly
when `total_frames mod k` is non-zero. -/
theorem c4_frame_padding (p : Prover) (total_frames : ℕ)
    (hk : 1 ≤ p.chunk_frame_count) :
    p.frame_padding_count total_frames = total_frames % p.chunk_frame_count ∧
    (p.needs_frame_padding total_frames = true ↔
      total_frames % p.chunk_frame_count ≠ 0) := by
  refine ⟨rfl, ?_⟩
  simp [Prover.needs_frame_padding, Prover.frame_padding_count]

/-- C4, witness: the theorem instantiated at chunk size 3 and 7 frames. -/
theorem c4_frame_padding_witness :
    Prover.frame_padding_count ⟨3⟩ 7 = 7 % 3 ∧
    (Prover.needs_frame_padding ⟨3⟩ 7 = true ↔ 7 % 3 ≠ 0) :=
  c4_frame_padding ⟨3⟩ 7 (by decide)

/-- C6: `verify_sequential_css` returns `Ok(true)` exactly when every
adjacent pair of multiframes satisfies `precedes` (prev.output equals
next.input) and every constraint system in the sequence is satisfied and
verifies against its own multiframe's public inputs; otherwise — on the
first violation — it returns `Ok(false)`, never an error. -/
theorem c6_verify_sequential_css (public_inputs : MultiFrame → List ℕ)
    (css : List (MultiFrame × TestConstraintSystem)) :
    (verify_sequential_css public_inputs css = Except.ok true ↔
      (List.Chain' (fun a b => a.1.precedes b.1 = true) css ∧
        ∀ p ∈ css, p.2.is_satisfied = true ∧
          p.2.verify (public_inputs p.1) = true)) ∧
    (verify_sequential_css public_inputs css = Except.ok true ∨
      verify_sequential_css public_inputs css = Except.ok false) := by
  constructor
  · rw [verify_sequential_css, verify_sequential_go_iff]
    simp [List.chain'_map]
  · exact verify_sequential_go_ok public_inputs css none

/-- C7: `load_srs` opens `params/v28-fil-inner-product-v1.srs` under the
current directory and memory-maps it with size bound
`MAX_FAKE_SRS_SIZE = (2 << 14) + 1 = 32769`; when the open fails and the
fake-SRS fallback is enabled it returns the fake SRS of that size generated
from the RNG seeded with the fixed 16-byte constant — so two such fallback
loads yield identical SRS values — and when the fallback is disabled the
file-open error is returned to the caller. -/
theorem c7_load_srs (File Mm Srs IoErr : Type) :
    Groth16.MAX_FAKE_SRS_SIZE = (2 <<< 14) + 1 ∧
    Groth16.MAX_FAKE_SRS_SIZE = 32769 ∧
    Groth16.DUMMY_RNG_SEED.length = 16 ∧
    Groth16.FALLBACK_TO_FAKE_SRS = true ∧
    (∀ (env : Groth16.SrsEnv File Mm Srs IoErr) (dir : String) (f : File) (m : Mm),
      env.current_dir = Except.ok dir →
      env.open_file (dir ++ "/params/v28-fil-inner-product-v1.srs") = Except.ok f →
      env.map f = Except.ok m →
      Groth16.load_srs env = env.read_mmap m Groth16.MAX_FAKE_SRS_SIZE) ∧
    (∀ (env : Groth16.SrsEnv File Mm Srs IoErr) (dir : String) (e : IoErr),
      env.current_dir = Except.ok dir →
      env.open_file (dir ++ "/params/v28-fil-inner-product-v1.srs") =
        Except.error e →
      Groth16.load_srs env = Except.ok
        (env.setup_fake_srs Groth16.DUMMY_RNG_SEED Groth16.MAX_FAKE_SRS_SIZE)) ∧
    (∀ (env : Groth16.SrsEnv File Mm Srs IoErr) (dir : String) (e : IoErr),
      env.current_dir = Except.ok dir →
      env.open_file (dir ++ "/params/v28-fil-inner-product-v1.srs") =
        Except.error e →
      Groth16.load_srs_with false env = Except.error e) ∧
    (∀ (env₁ env₂ : Groth16.SrsEnv File Mm Srs IoErr) (d₁ d₂ : String)
        (e₁ e₂ : IoErr),
      env₁.current_dir = Except.ok d₁ →
      env₂.current_dir = Except.ok d₂ →
      env₁.open_file (d₁ ++ "/params/v28-fil-inner-product-v1.srs") =
        Except.error e₁ →
      env₂.open_file (d₂ ++ "/params/v28-fil-inner-product-v1.srs") =
        Except.error e₂ →
      env₁.setup_fake_srs = env₂.setup_fake_srs →
      Groth16.load_srs env₁ = Groth16.load_srs env₂) := by
  refine ⟨rfl, by decide, by decide, rfl, ?_, ?_, ?_, ?_⟩
  · intro env dir f m hcur hopen hmap
    simp only [Groth16.load_srs, Groth16.load_srs_with, hcur, hopen, hmap]
  · intro env dir e hcur hopen
    simp only [Groth16.load_srs, Groth16.load_srs_with, hcur, hopen,
      Groth16.FALLBACK_TO_FAKE_SRS, if_true]
  · intro env dir e hcur hopen
    simp only [Groth16.load_srs_with, hcur, hopen, if_false, Bool.false_eq_true]
  · intro env₁ env₂ d₁ d₂ e₁ e₂ hcur₁ hcur₂ hopen₁ hopen₂ hsetup
    simp only [Groth16.load_srs, Groth16.load_srs_with, hcur₁, hcur₂,
      hopen₁, hopen₂, Groth16.FALLBACK_TO_FAKE_SRS, if_true, hsetup]

/-- C7, witness: on a sample environment over `ℕ` whose file open fails,
`load_srs` with the fallback enabled returns the seeded fake SRS and
`load_srs` with the fallback disabled returns the open error. -/
theorem c7_load_srs_witness :
    Groth16.load_srs srs_env_a = Except.ok
      (srs_env_a.setup_fake_srs Groth16.DUMMY_RNG_SEED Groth16.MAX_FAKE_SRS_SIZE) ∧
    Groth16.load_srs_with false srs_env_a = Except.error 7 :=
  ⟨(c7_load_srs ℕ ℕ ℕ ℕ).2.2.2.2.2.1 srs_env_a "" 7 rfl rfl,
   (c7_load_srs ℕ ℕ ℕ ℕ).2.2.2.2.2.2.1 srs_env_a "" 7 rfl rfl⟩

/-- C8: `TRANSCRIPT_INCLUDE` is the ASCII byte string "LURK-CIRCUIT", the
aggregation call in `outer_prove` uses its aggregator only at this
transcript domain separator, and `verify` passes exactly this byte string
to the aggregate verifier. -/
theorem c8_transcript_include :
    Groth16.TRANSCRIPT_INCLUDE =
      [76, 85, 82, 75, 45, 67, 73, 82, 67, 85, 73, 84] ∧
    (∀ (Pf Agg Srs Err : Type) (chunk_frame_count : ℕ)
        (prove_fn : MultiFrame → Except Err Pf)
        (public_inputs : MultiFrame → List ℕ)
        (make_dummy : ℕ → Option Frame → MultiFrame)
        (specialize : Srs → ℕ → Srs)
        (agg₁ agg₂ : Srs → List ℕ → List (List ℕ) → List Pf → Except Err Agg)
        (srs : Srs) (frames : List Frame) (multiframes : List MultiFrame),
      (∀ s st pr, agg₁ s Groth16.TRANSCRIPT_INCLUDE st pr =
        agg₂ s Groth16.TRANSCRIPT_INCLUDE st pr) →
      Groth16.outer_prove chunk_frame_count prove_fn public_inputs make_dummy
          specialize agg₁ srs frames multiframes =
        Groth16.outer_prove chunk_frame_count prove_fn public_inputs make_dummy
          specialize agg₂ srs frames multiframes) ∧
    (∀ (Pvk SrsVk Agg Rng Err : Type)
        (verify_aggregate :
          SrsVk → Pvk → Rng → List ℕ → List ℕ → Agg → List ℕ → Except Err Bool)
        (pvk : Pvk) (srs_vk : SrsVk) (pi po : List ℕ) (proof : Agg) (rng : Rng),
      Groth16.verify verify_aggregate pvk srs_vk pi po proof rng =
        verify_aggregate srs_vk pvk rng pi po proof Groth16.TRANSCRIPT_INCLUDE) := by
  refine ⟨by decide, ?_, ?_⟩
  · intro Pf Agg Srs Err cfc prove_fn public_inputs make_dummy specialize
      agg₁ agg₂ srs frames multiframes hagg
    simp only [Groth16.outer_prove, hagg]
  · intro Pvk SrsVk Agg Rng Err verify_aggregate pvk srs_vk pi po proof rng
    rfl

/-- C8, witness: two aggregators that differ in general but agree at the
transcript "LURK-CIRCUIT" (one returns the transcript length, the other the
constant 12) make `outer_prove` produce the same result on sample inputs. -/
theorem c8_transcript_include_witness :
    Groth16.outer_prove 1
        (fun _ => (Except.ok 0 : Except ℕ ℕ)) (fun _ => [])
        (fun _ _ => mf_a) (fun (s : ℕ) _ => s)
        (fun _ t _ _ => (Except.ok t.length : Except ℕ ℕ)) 0
        [frame_a] [mf_a, mf_a] =
      Groth16.outer_prove 1
        (fun _ => (Except.ok 0 : Except ℕ ℕ)) (fun _ => [])
        (fun _ _ => mf_a) (fun (s : ℕ) _ => s)
        (fun _ _ _ _ => (Except.ok 12 : Except ℕ ℕ)) 0
        [frame_a] [mf_a, mf_a] :=
  c8_transcript_include.2.1 ℕ ℕ ℕ ℕ 1
    (fun _ => (Except.ok 0 : Except ℕ ℕ)) (fun _ => [])
    (fun _ _ => mf_a) (fun (s : ℕ) _ => s)
    (fun _ t _ _ => (Except.ok t.length : Except ℕ ℕ))
    (fun _ _ _ _ => (Except.ok 12 : Except ℕ ℕ))
    0 [frame_a] [mf_a, mf_a] (fun _ _ _ => rfl)

/-- C2: in `outer_prove`, after the padding step the proof vector and the
statement vector have the same length, that length is a power of two
(count_ones = 1) and at least 2, and every entry appended by padding is a
copy of the single dummy proof (resp. of the dummy multiframe's
public-input statement) built from the last frame of the last multiframe;
the padding loop terminates — the padding step is a total function whose
result the theorem characterizes — for every initial proof count ≥ 1. -/
theorem c2_outer_prove_padding {Pf Err : Type} (chunk_frame_count : ℕ)
    (prove_fn : MultiFrame → Except Err Pf) (public_inputs : MultiFrame → List ℕ)
    (make_dummy : ℕ → Option Frame → MultiFrame) (last_multiframe : MultiFrame)
    (proofs : List Pf) (statements : List (List ℕ))
    (hlen : statements.length = proofs.length)
    (hpos : 1 ≤ proofs.length)
    (hok : ∀ mf, ∃ p, prove_fn mf = Except.ok p) :
    ∃ (k : ℕ) (out : List Pf × List (List ℕ)),
      Groth16.apply_padding chunk_frame_count prove_fn public_inputs make_dummy
          last_multiframe proofs statements = some out ∧
      out.1.length = out.2.length ∧
      2 ≤ out.1.length ∧
      count_ones out.1.length = 1 ∧
      (∀ dp, prove_fn (make_dummy chunk_frame_count
          (last_multiframe.frames.bind List.getLast?)) = Except.ok dp →
        out.1 = proofs ++ List.replicate k dp) ∧
      out.2 = statements ++ List.replicate k
        (public_inputs (make_dummy chunk_frame_count
          (last_multiframe.frames.bind List.getLast?))) := by
  obtain ⟨k, out, hsome, hl1, hl2, hT, hdps, hss⟩ :=
    Groth16.apply_padding_full chunk_frame_count prove_fn public_inputs make_dummy
      last_multiframe proofs statements (hok _)
  refine ⟨k, out, hsome, by omega, ?_, ?_, hdps, hss⟩
  · have := two_le_next_pow proofs.length
    omega
  · rw [hl1, hT]
    exact count_ones_next_pow _

/-- C2, witness: the theorem at one proof and one statement, where the
padding step must append one dummy entry to reach length 2. -/
theorem c2_outer_prove_padding_witness :
    ∃ (k : ℕ) (out : List ℕ × List (List ℕ)),
      Groth16.apply_padding 2 (fun _ => (Except.ok 0 : Except ℕ ℕ))
          (fun _ => [9]) (fun _ _ => mf_a) mf_a [5] [[9]] = some out ∧
      out.1.length = out.2.length ∧
      2 ≤ out.1.length ∧
      count_ones out.1.length = 1 ∧
      (∀ dp, (Except.ok 0 : Except ℕ ℕ) = Except.ok dp →
        out.1 = [5] ++ List.replicate k dp) ∧
      out.2 = [[9]] ++ List.replicate k [9] :=
  c2_outer_prove_padding 2 (fun _ => (Except.ok 0 : Except ℕ ℕ)) (fun _ => [9])
    (fun _ _ => mf_a) mf_a [5] [[9]] rfl (by decide) (fun _ => ⟨0, rfl⟩)

/-- C9: the default `Prover::multiframe_padding_count` returns 0 for every
raw multiframe count and `Groth16Prover` does not override it, so
`needs_multiframe_padding` is always false and
`expected_total_iterations(raw)` equals `ceil((raw + 1) /
chunk_frame_count)` (computed as `(raw + 1 + cfc - 1) / cfc`) with no
power-of-two multiframe padding included — even though `outer_prove`'s
padding loop does pad the proof vector to a power of two at least 2. -/
theorem c9_no_multiframe_padding (g : Groth16Prover) (n raw : ℕ) :
    g.toProver.multiframe_padding_count n = 0 ∧
    g.toProver.needs_multiframe_padding n = false ∧
    (1 ≤ g.chunk_frame_count →
      g.toProver.expected_total_iterations raw =
        (raw + 1 + g.chunk_frame_count - 1) / g.chunk_frame_count) ∧
    (∀ (d : ℕ) (e : List ℕ) (ps : List ℕ) (ss : List (List ℕ)),
      2 ≤ (Groth16.pad_loop d e ps ss).1.length ∧
      count_ones (Groth16.pad_loop d e ps ss).1.length = 1) := by
  refine ⟨rfl, rfl, ?_, ?_⟩
  · intro hk
    have key := div_ceil_eq (raw + 1) g.chunk_frame_count (by omega)
    simp only [Prover.expected_total_iterations, Prover.multiframe_padding_count,
      Groth16Prover.toProver, Nat.add_zero]
    by_cases h : (raw + 1) % g.chunk_frame_count = 0
    · simp only [h, if_pos rfl] at key
      simp only [h]
      simpa using key
    · simp only [if_neg h] at key
      simp only [bne_iff_ne, ne_eq, h, not_false_eq_true, if_true]
      exact key
  · intro d e ps ss
    obtain ⟨k, hpad, hlen⟩ :=
      Groth16.pad_loop_spec d e
        (max 2 (2 ^ Nat.clog 2 ps.length) - ps.length) ps ss le_rfl
    have hplen : (Groth16.pad_loop d e ps ss).1.length = ps.length + k := by
      rw [hpad]
      simp
    constructor
    · have := two_le_next_pow ps.length
      omega
    · rw [hplen, hlen]
      exact count_ones_next_pow _

/-- C9, witness: with chunk size 3 and 7 raw iterations, the expected total
iteration count is `ceil(8 / 3) = 3`, with no multiframe padding. -/
theorem c9_no_multiframe_padding_witness :
    Prover.expected_total_iterations (Groth16Prover.toProver ⟨3⟩) 7 =
      (7 + 1 + 3 - 1) / 3 :=
  (c9_no_multiframe_padding ⟨3⟩ 0 7).2.2.1 (by decide)

/-- C5: whenever `outer_prove` returns Ok, the returned triple satisfies:
the second component equals the input of the first generated frame, the
third equals the output of the last generated frame, the Proof's
`proof_count` equals the padded proof-vector length (the least power of two
≥ 2 that is ≥ the multiframe count), and the Proof's `chunk_frame_count`
equals the prover's `chunk_frame_count`. -/
theorem c5_outer_prove_result {Pf Agg Srs Err : Type} (chunk_frame_count : ℕ)
    (prove_fn : MultiFrame → Except Err Pf) (public_inputs : MultiFrame → List ℕ)
    (make_dummy : ℕ → Option Frame → MultiFrame) (specialize : Srs → ℕ → Srs)
    (aggregate : Srs → List ℕ → List (List ℕ) → List Pf → Except Err Agg)
    (srs : Srs) (frames : List Frame) (multiframes : List MultiFrame)
    (pf : Groth16.Proof Agg) (pi po : IOState)
    (h : Groth16.outer_prove chunk_frame_count prove_fn public_inputs make_dummy
        specialize aggregate srs frames multiframes =
      Groth16.RunOutcome.returns (Except.ok (pf, pi, po))) :
    pf.chunk_frame_count = chunk_frame_count ∧
    pf.proof_count = max 2 (2 ^ Nat.clog 2 multiframes.length) ∧
    (∃ f₀, frames.head? = some f₀ ∧ pi = f₀.input) ∧
    (∃ fl, frames.getLast? = some fl ∧ po = fl.output) := by
  cases hml : multiframes.getLast? with
  | none => simp [Groth16.outer_prove, hml] at h
  | some lmf =>
    cases hpa : Groth16.prove_all prove_fn public_inputs multiframes with
    | none => simp [Groth16.outer_prove, hml, hpa] at h
    | some sp =>
      obtain ⟨statements, proofs⟩ := sp
      cases hpad : Groth16.apply_padding chunk_frame_count prove_fn
          public_inputs make_dummy lmf proofs statements with
      | none => simp [Groth16.outer_prove, hml, hpa, hpad] at h
      | some out =>
        obtain ⟨proofs2, statements2⟩ := out
        by_cases hassert : count_ones statements2.length ≠ 1
        · simp [Groth16.outer_prove, hml, hpa, hpad, hassert] at h
        · cases hagg : aggregate (specialize srs proofs2.length)
              Groth16.TRANSCRIPT_INCLUDE statements2 proofs2 with
          | error e =>
            simp [Groth16.outer_prove, hml, hpa, hpad, hassert, hagg] at h
          | ok agg =>
            cases hhead : frames.head? with
            | none =>
              simp [Groth16.outer_prove, hml, hpa, hpad, hassert, hagg, hhead] at h
            | some f₀ =>
              cases hlast : frames.getLast? with
              | none =>
                simp [Groth16.outer_prove, hml, hpa, hpad, hassert, hagg,
                  hhead, hlast] at h
              | some fl =>
                simp only [Groth16.outer_prove, hml, hpa, hpad, hassert, hagg,
                  hhead, hlast, Groth16.RunOutcome.returns.injEq,
                  Except.ok.injEq, Prod.mk.injEq] at h
                obtain ⟨⟨rfl, rfl⟩, rfl⟩ := h
                obtain ⟨hssl, hpsl⟩ :=
                  Groth16.prove_all_lengths prove_fn public_inputs multiframes
                    statements proofs hpa
                obtain ⟨k, hl1, hl2, hT⟩ :=
                  Groth16.apply_padding_inv chunk_frame_count prove_fn
                    public_inputs make_dummy lmf proofs statements
                    (proofs2, statements2) hpad
                refine ⟨rfl, ?_, ⟨f₀, rfl, rfl⟩, ⟨fl, rfl, rfl⟩⟩
                show proofs2.length = _
                simp only at hl1 hl2
                rw [← hpsl]
                omega

/-- C5, witness: on sample inputs with two multiframes and one frame,
`outer_prove` returns Ok with proof ⟨3, 2, 1⟩ and the endpoints of the
frame sequence. -/
theorem c5_outer_prove_result_witness :
    (⟨3, 2, 1⟩ : Groth16.Proof ℕ).chunk_frame_count = 1 ∧
    (⟨3, 2, 1⟩ : Groth16.Proof ℕ).proof_count =
      max 2 (2 ^ Nat.clog 2 ([mf_a, mf_a] : List MultiFrame).length) ∧
    (∃ f₀, ([frame_a] : List Frame).head? = some f₀ ∧ io_a = f₀.input) ∧
    (∃ fl, ([frame_a] : List Frame).getLast? = some fl ∧ io_b = fl.output) :=
  c5_outer_prove_result 1 (fun _ => (Except.ok 0 : Except ℕ ℕ)) (fun _ => [])
    (fun _ _ => mf_a) (fun (s : ℕ) _ => s) (fun _ _ _ _ => Except.ok 3) 0
    [frame_a] [mf_a, mf_a] ⟨3, 2, 1⟩ io_a io_b rfl

/-- C10: `outer_prove` requires the evaluator to produce at least one
frame: under the precondition that the frame sequence and the multiframe
vector are non-empty (and every per-multiframe proof succeeds), all the
unchecked accesses are in range and the function returns; on an empty
multiframe vector it panics (`multiframes.last().unwrap()`) instead of
returning an error; and an inner per-multiframe proof failure is
`unwrap`ped — a panic — rather than propagated in the `Result`. -/
theorem c10_outer_prove_panics {Pf Agg Srs Err : Type} (chunk_frame_count : ℕ)
    (prove_fn : MultiFrame → Except Err Pf) (public_inputs : MultiFrame → List ℕ)
    (make_dummy : ℕ → Option Frame → MultiFrame) (specialize : Srs → ℕ → Srs)
    (aggregate : Srs → List ℕ → List (List ℕ) → List Pf → Except Err Agg)
    (srs : Srs) (frames : List Frame) (multiframes : List MultiFrame) :
    (multiframes = [] →
      Groth16.outer_prove chunk_frame_count prove_fn public_inputs make_dummy
          specialize aggregate srs frames multiframes =
        Groth16.RunOutcome.aborted "Option::unwrap on None") ∧
    (frames ≠ [] → multiframes ≠ [] →
      (∀ mf, ∃ p, prove_fn mf = Except.ok p) →
      ∃ r, Groth16.outer_prove chunk_frame_count prove_fn public_inputs
          make_dummy specialize aggregate srs frames multiframes =
        Groth16.RunOutcome.returns r) ∧
    ((∃ mf ∈ multiframes, ∃ e, prove_fn mf = Except.error e) →
      Groth16.outer_prove chunk_frame_count prove_fn public_inputs make_dummy
          specialize aggregate srs frames multiframes =
        Groth16.RunOutcome.aborted "Result::unwrap on Err") := by
  refine ⟨?_, ?_, ?_⟩
  · rintro rfl
    rfl
  · intro hf hm hok
    obtain ⟨lmf, hlmf⟩ := Option.isSome_iff_exists.mp (List.getLast?_isSome.mpr hm)
    obtain ⟨ss, ps, hpa⟩ :=
      Groth16.prove_all_ok prove_fn public_inputs multiframes (fun mf _ => hok mf)
    obtain ⟨hssl, hpsl⟩ :=
      Groth16.prove_all_lengths prove_fn public_inputs multiframes ss ps hpa
    obtain ⟨k, out, hsome, hl1, hl2, hT, _, _⟩ :=
      Groth16.apply_padding_full chunk_frame_count prove_fn public_inputs
        make_dummy lmf ps ss (hok _)
    have hassert : count_ones out.2.length = 1 := by
      have heq : out.2.length = out.1.length := by omega
      rw [heq, hl1, hT]
      exact count_ones_next_pow _
    simp only [Groth16.outer_prove, hlmf, hpa, hsome]
    rw [if_neg (by rw [hassert]; omega)]
    cases hagg : aggregate (specialize srs out.1.length)
        Groth16.TRANSCRIPT_INCLUDE out.2 out.1 with
    | error e =>
      refine ⟨Except.error e, ?_⟩
      simp only [hagg]
    | ok agg =>
      obtain ⟨f₀, fs₀, rfl⟩ : ∃ f₀ fs₀, frames = f₀ :: fs₀ := by
        cases frames with
        | nil => exact absurd rfl hf
        | cons a b => exact ⟨a, b, rfl⟩
      obtain ⟨fl, hfl⟩ := Option.isSome_iff_exists.mp (List.getLast?_isSome.mpr hf)
      refine ⟨Except.ok
        ({ proof := agg, proof_count := out.1.length,
           chunk_frame_count := chunk_frame_count }, f₀.input, fl.output), ?_⟩
      simp only [hagg, List.head?_cons, hfl]
  · rintro ⟨mf, hmem, e, he⟩
    have hne : multiframes ≠ [] := List.ne_nil_of_mem hmem
    obtain ⟨lmf, hlmf⟩ := Option.isSome_iff_exists.mp (List.getLast?_isSome.mpr hne)
    have hnone :=
      Groth16.prove_all_err prove_fn public_inputs multiframes ⟨mf, hmem, e, he⟩
    simp only [Groth16.outer_prove, hlmf, hnone]

/-- C10, witness: on an empty multiframe vector `outer_prove` panics at the
`multiframes.last().unwrap()` access. -/
theorem c10_outer_prove_panics_witness :
    Groth16.outer_prove 1 (fun _ => (Except.ok 0 : Except ℕ ℕ)) (fun _ => [])
        (fun _ _ => mf_a) (fun (s : ℕ) _ => s) (fun _ _ _ _ => Except.ok 0) 0
        [] [] = Groth16.RunOutcome.aborted "Option::unwrap on None" :=
  (c10_outer_prove_panics 1 (fun _ => (Except.ok 0 : Except ℕ ℕ)) (fun _ => [])
    (fun _ _ => mf_a) (fun (s : ℕ) _ => s) (fun _ _ _ _ => Except.ok 0) 0
    [] []).1 rfl
